import Mathlib

/-!
Verification of the cog conversational-analytics front end.

The development shallowly embeds the streaming-protocol client and the
presentation state machine of the repository:

* `src/frontend/src/services/api.ts` — `sendMessageStream`: the blank-line
  framed stream decoder with its carry-over buffer (`splitNN`, `feedChunk`,
  `decodeChunks`) and the `data: ` marker / `JSON.parse` per-record handling
  (`parseFrame`, `jsonParse`).
* `src/frontend/src/hooks/useChat.ts` — `sendMessage`'s event dispatcher and
  exchange lifecycle (`dispatchEvent`, `processEvents`, `sendMessage`), and
  `addChartToPresentation`.
* `src/frontend/src/components/PresentationSidebar.tsx` —
  `handleDeleteSlide`, `handleMoveSlide`, `captureChartImages`.

Modelling conventions: JavaScript strings are Lean `String`s, byte streams are
`List Char` (the `TextDecoder` in streaming mode concatenates chunks at
character granularity, carrying split UTF-8 sequences, so byte-offset chunk
boundaries are character-offset boundaries after decoding); `undefined`/`null`
fields are `Option`; `uuidv4()` and `new Date()` are drawn from a monotone
counter (`nextId`), which is sound because no claim depends on their values;
React `setState` calls are sequential state updates, which is faithful because
the dispatcher runs synchronously per event on a single thread.
-/

namespace Cog

/-- JSON values as produced by the JavaScript builtin `JSON.parse`.
Modelled from the spec: `JSON.parse` is the platform builtin used by
`sendMessageStream`; numbers are modelled as integers (no claim exercises
fractional numbers) and unicode escapes are omitted. -/
inductive Json where
  | null
  | bool (b : Bool)
  | num (n : Int)
  | str (s : String)
  | arr (elems : List Json)
  | obj (fields : List (String × Json))
deriving Repr

/-- `ChartConfig.chartType` from `types.ts`. -/
inductive ChartType where
  | line | bar | pie | area | scatter
deriving Repr, DecidableEq

/-- The optional `config` display-options bag of `ChartConfig` in `types.ts`. -/
structure ChartOptions where
  responsive : Option Bool := none
  maintainAspectRatio : Option Bool := none
  legend : Option Bool := none
  tooltip : Option Bool := none
  grid : Option Bool := none
deriving Repr, DecidableEq

/-- `ChartConfig` from `types.ts`; the constant `type: 'chart'` tag is omitted
and each data record (`Record<string, unknown>`) is a field-name/value list. -/
structure ChartConfig where
  chartType : ChartType
  title : String
  data : List (List (String × Json))
  xAxisKey : String
  yAxisKeys : List String
  colors : List String
  config : Option ChartOptions := none
deriving Repr

/-- `SlideContent.content : string | string[]` from `types.ts`. -/
inductive SlideBody where
  | text (s : String)
  | bullets (items : List String)
deriving Repr, DecidableEq

/-- `SlideContent.contentType` from `types.ts`. -/
inductive ContentType where
  | text | chart | bullets | mixed
deriving Repr, DecidableEq

/-- `SlideContent` from `types.ts`. -/
structure SlideContent where
  id : String
  order : Nat
  title : String
  contentType : ContentType
  content : SlideBody
  notes : Option String := none
  chartConfig : Option ChartConfig := none
  chartImage : Option String := none
deriving Repr

/-- The optional `metadata` bag of `PresentationConfig` in `types.ts`. -/
structure PresentationMetadata where
  createdAt : String
  slideCount : Nat
deriving Repr, DecidableEq

/-- `PresentationConfig` from `types.ts`; the constant `type: 'presentation'`
tag is omitted. -/
structure PresentationConfig where
  presentationId : String
  title : String
  slides : List SlideContent
  metadata : Option PresentationMetadata := none
deriving Repr

/-! ## Presentation state machine
`addChartToPresentation` (useChat.ts), `handleDeleteSlide` and
`handleMoveSlide` (PresentationSidebar.tsx). -/

/-- The renumbering `slides.map((s, index) => ({ ...s, order: index + 1 }))`
used by `handleDeleteSlide` and `handleMoveSlide`, generalised to an arbitrary
first position `k` so that it can be reasoned about by structural induction. -/
def renumberFrom (k : Nat) : List SlideContent → List SlideContent
  | [] => []
  | s :: rest => { s with order := k } :: renumberFrom (k + 1) rest

/-- `slides.map((s, index) => ({ ...s, order: index + 1 }))`. -/
def renumber (slides : List SlideContent) : List SlideContent :=
  renumberFrom 1 slides

/-- `addChartToPresentation` from `useChat.ts` (the non-null
`currentPresentation` path): appends one chart slide whose `id` and `order`
are derived from the current slide count. -/
def addChartToPresentation (deck : PresentationConfig) (chart : ChartConfig)
    (chartImage : String) : PresentationConfig :=
  let newSlide : SlideContent :=
    { id := "slide-" ++ toString (deck.slides.length + 1)
      order := deck.slides.length + 1
      title := chart.title
      contentType := ContentType.chart
      content := SlideBody.text ""
      chartConfig := some chart
      chartImage := some chartImage }
  { deck with slides := deck.slides ++ [newSlide] }

/-- `handleDeleteSlide` from `PresentationSidebar.tsx`: filter out the slide
with the given id, then renumber the remaining slides by array position. -/
def handleDeleteSlide (deck : PresentationConfig) (slideId : String) :
    PresentationConfig :=
  { deck with slides := renumber (deck.slides.filter (fun s => s.id != slideId)) }

/-- The `'up' | 'down'` direction argument of `handleMoveSlide`. -/
inductive MoveDir where
  | up | down
deriving Repr, DecidableEq

/-- Models the JavaScript value `{ ...undefined, order: _ }` (before the order
is written): spreading `undefined` yields an object with no fields, so every
field is absent; absent fields of the base types are modelled by the empty
string / `none` defaults.  This value only arises on `handleMoveSlide`'s
missing-id path (see `handleMoveSlide`), and no theorem depends on it. -/
def spreadUndefinedSlide : SlideContent :=
  { id := "", order := 0, title := "", contentType := ContentType.text
    content := SlideBody.text "" }

/-- `handleMoveSlide` from `PresentationSidebar.tsx`.  When `findIndex`
returns `-1` (id not found) the source's boundary test
`direction === 'down' && slideIndex === slides.length - 1` only fires on an
empty deck; otherwise the swap assigns to array indices `-1`/`-2` (creating
inert properties) except that for `down` it overwrites element `0` with
`newSlides[-1]`, i.e. `undefined`, which the renumbering map then spreads —
modelled by `spreadUndefinedSlide`. -/
def handleMoveSlide (deck : PresentationConfig) (slideId : String)
    (direction : MoveDir) : PresentationConfig :=
  match deck.slides.findIdx? (fun s => s.id == slideId) with
  | none =>
    match direction, deck.slides with
    | MoveDir.down, [] => deck
    | MoveDir.down, _ :: rest =>
      { deck with slides := renumber (spreadUndefinedSlide :: rest) }
    | MoveDir.up, _ => { deck with slides := renumber deck.slides }
  | some slideIndex =>
    if (direction = MoveDir.up ∧ slideIndex = 0) ∨
        (direction = MoveDir.down ∧ slideIndex = deck.slides.length - 1) then
      deck
    else
      let targetIndex :=
        match direction with
        | MoveDir.up => slideIndex - 1
        | MoveDir.down => slideIndex + 1
      let a := deck.slides.getD slideIndex spreadUndefinedSlide
      let b := deck.slides.getD targetIndex spreadUndefinedSlide
      { deck with
        slides := renumber ((deck.slides.set slideIndex b).set targetIndex a) }

/-- One deck operation, as quantified over by the order invariant. -/
inductive DeckOp where
  | append (chart : ChartConfig) (chartImage : String)
  | del (slideId : String)
  | move (slideId : String) (direction : MoveDir)

/-- Apply one deck operation. -/
def applyDeckOp (deck : PresentationConfig) : DeckOp → PresentationConfig
  | DeckOp.append c img => addChartToPresentation deck c img
  | DeckOp.del sid => handleDeleteSlide deck sid
  | DeckOp.move sid dir => handleMoveSlide deck sid dir

/-- Apply a sequence of deck operations, left to right. -/
def applyDeckOps (deck : PresentationConfig) (ops : List DeckOp) :
    PresentationConfig :=
  ops.foldl applyDeckOp deck

/-- The documented slide-order invariant: the `order` fields are exactly the
contiguous sequence `1..N`, the slide at array position `i` carrying
order `i + 1`. -/
def ordersContig (slides : List SlideContent) : Prop :=
  slides.map SlideContent.order = List.range' 1 slides.length

instance (slides : List SlideContent) : Decidable (ordersContig slides) := by
  unfold ordersContig; infer_instance

/-- A concrete chart value used by witnesses and counterexamples. -/
def sampleChart (t : String) : ChartConfig :=
  { chartType := ChartType.bar, title := t
    data := [[("region", Json.str "west"), ("sales", Json.num 7)]]
    xAxisKey := "region", yAxisKeys := ["sales"], colors := ["#8884d8"] }

/-- A concrete deck with no slides, as created before any chart is added. -/
def emptyDeck : PresentationConfig :=
  { presentationId := "pres-1", title := "Analytics Report", slides := [] }

/-! ## Event envelope codec
`sendMessageStream` from `api.ts`: `buffer += decoder.decode(value); const
lines = buffer.split('\n\n'); buffer = lines.pop() || '';` and, per complete
line, `if (line.startsWith('data: ')) try { onEvent(JSON.parse(line.slice(6)))
} catch { /- ignored -/ }`. -/

/-- JSON whitespace, as accepted by `JSON.parse`. -/
def skipWs (s : List Char) : List Char :=
  s.dropWhile (fun c => c == ' ' || c == '\t' || c == '\n' || c == '\r')

/-- One-character string escapes accepted by `JSON.parse` (unicode escapes
are outside the modelled subset). -/
def escChar (c : Char) : Option Char :=
  if c = 'n' then some '\n'
  else if c = 't' then some '\t'
  else if c = 'r' then some '\r'
  else if c = 'b' then some (Char.ofNat 8)
  else if c = 'f' then some (Char.ofNat 12)
  else if c = '"' ∨ c = '\\' ∨ c = '/' then some c
  else none

/-- Body of a JSON string after the opening quote: the decoded characters and
the input remaining after the closing quote. -/
def parseStrChars : List Char → Option (List Char × List Char)
  | [] => none
  | '"' :: rest => some ([], rest)
  | '\\' :: c :: rest =>
    match escChar c with
    | some e => (parseStrChars rest).map (fun p => (e :: p.1, p.2))
    | none => none
  | c :: rest => (parseStrChars rest).map (fun p => (c :: p.1, p.2))

/-- Decimal digit characters to a natural number. -/
def digitsVal (ds : List Char) : Nat :=
  ds.foldl (fun acc c => acc * 10 + (c.toNat - 48)) 0

/-- A JSON number (the integer subset of the model; a fraction or exponent
makes the model reject, see `Json`). -/
def parseNum (s : List Char) : Option (Json × List Char) :=
  let neg := match s with
    | '-' :: _ => true
    | _ => false
  let s1 := if neg then s.drop 1 else s
  let ds := s1.takeWhile (fun c => c.isDigit)
  let rest := s1.dropWhile (fun c => c.isDigit)
  if ds.isEmpty then none
  else
    match rest with
    | '.' :: _ => none
    | 'e' :: _ => none
    | 'E' :: _ => none
    | _ =>
      let n : Int := Int.ofNat (digitsVal ds)
      some (Json.num (if neg then -n else n), rest)

mutual

/-- Recursive-descent JSON value parser with explicit fuel; returns the value
and the unconsumed input.  Models the grammar accepted by the JavaScript
builtin `JSON.parse` (integer numbers, no unicode escapes). -/
def parseVal : Nat → List Char → Option (Json × List Char)
  | 0, _ => none
  | fuel + 1, s =>
    match skipWs s with
    | [] => none
    | '{' :: rest =>
      match skipWs rest with
      | '}' :: rest2 => some (Json.obj [], rest2)
      | _ => (parseMembers fuel (skipWs rest)).map (fun p => (Json.obj p.1, p.2))
    | '[' :: rest =>
      match skipWs rest with
      | ']' :: rest2 => some (Json.arr [], rest2)
      | _ => (parseElems fuel (skipWs rest)).map (fun p => (Json.arr p.1, p.2))
    | '"' :: rest =>
      (parseStrChars rest).map (fun p => (Json.str (String.mk p.1), p.2))
    | 'n' :: rest =>
      if ['u', 'l', 'l'].isPrefixOf rest then some (Json.null, rest.drop 3)
      else none
    | 't' :: rest =>
      if ['r', 'u', 'e'].isPrefixOf rest then some (Json.bool true, rest.drop 3)
      else none
    | 'f' :: rest =>
      if ['a', 'l', 's', 'e'].isPrefixOf rest then
        some (Json.bool false, rest.drop 4)
      else none
    | c :: rest =>
      if c == '-' || c.isDigit then parseNum (c :: rest) else none

/-- Object members `"key": value`, separated by commas, up to `}`. -/
def parseMembers : Nat → List Char → Option (List (String × Json) × List Char)
  | 0, _ => none
  | fuel + 1, s =>
    match skipWs s with
    | '"' :: rest =>
      match parseStrChars rest with
      | none => none
      | some (key, r1) =>
        match skipWs r1 with
        | ':' :: r2 =>
          match parseVal fuel r2 with
          | none => none
          | some (v, r3) =>
            match skipWs r3 with
            | ',' :: r4 =>
              (parseMembers fuel r4).map
                (fun p => ((String.mk key, v) :: p.1, p.2))
            | '}' :: r4 => some ([(String.mk key, v)], r4)
            | _ => none
        | _ => none
    | _ => none

/-- Array elements separated by commas, up to `]`. -/
def parseElems : Nat → List Char → Option (List Json × List Char)
  | 0, _ => none
  | fuel + 1, s =>
    match parseVal fuel s with
    | none => none
    | some (v, r1) =>
      match skipWs r1 with
      | ',' :: r2 => (parseElems fuel r2).map (fun p => (v :: p.1, p.2))
      | ']' :: r2 => some ([v], r2)
      | _ => none

end

/-- `JSON.parse`: a complete JSON document, with nothing but whitespace after
the value.  The fuel `s.length + 1` suffices because every recursive step
consumes at least one character. -/
def jsonParse (s : List Char) : Option Json :=
  match parseVal (s.length + 1) s with
  | some (v, rest) => if skipWs rest = [] then some v else none
  | none => none

/-- The fixed record marker `'data: '` of `sendMessageStream`. -/
def dataMarker : List Char := ['d', 'a', 't', 'a', ':', ' ']

/-- Per-record handling of `sendMessageStream`'s inner loop: a record is
parsed (and its event delivered) only when it starts with the marker, and a
`JSON.parse` failure is swallowed (`catch { /- ignored -/ }`), yielding no
event. -/
def parseFrame (line : List Char) : Option Json :=
  if dataMarker.isPrefixOf line then jsonParse (line.drop 6) else none

/-- `buffer.split('\n\n')`: split on the blank-line delimiter, leftmost-first
and non-overlapping, exactly as the JavaScript `String.split` scans.  The
last part is the incomplete remainder that becomes the carry-over buffer. -/
def splitNN : List Char → List (List Char)
  | [] => [[]]
  | [c] => [[c]]
  | c1 :: c2 :: rest =>
    if c1 = '\n' ∧ c2 = '\n' then [] :: splitNN rest
    else
      match splitNN (c2 :: rest) with
      | [] => [[c1]]
      | p :: ps => (c1 :: p) :: ps

/-- The stream-decoder state of `sendMessageStream`: the carry-over `buffer`
and the events delivered to the `onEvent` callback so far, in order. -/
structure DecodeState where
  buffer : List Char
  events : List Json
deriving Repr

/-- One iteration of `sendMessageStream`'s read loop on one decoded chunk:
`buffer += decoder.decode(value, { stream: true }); const lines =
buffer.split('\n\n'); buffer = lines.pop() || '';` followed by the per-line
`parseFrame` deliveries. -/
def feedChunk (st : DecodeState) (chunk : List Char) : DecodeState :=
  let parts := splitNN (st.buffer ++ chunk)
  { buffer := parts.getLastD []
    events := st.events ++ parts.dropLast.filterMap parseFrame }

/-- Run the read loop over the chunks of one response body, starting from the
fresh per-request decoder; at end of stream the remaining buffer is simply
discarded, so the result is the ordered list of callback-delivered events. -/
def decodeChunks (chunks : List (List Char)) : List Json :=
  (chunks.foldl feedChunk { buffer := [], events := [] }).events

/-- Does the text contain the delimiter `\n\n` anywhere? -/
def hasNN : List Char → Bool
  | [] => false
  | [_] => false
  | c1 :: c2 :: rest => decide (c1 = '\n' ∧ c2 = '\n') || hasNN (c2 :: rest)

/-! ## Conversation state store and dispatcher
`sendMessage` from `useChat.ts`: the per-event `switch` in the `onEvent`
callback, and the surrounding `try`/`catch`/`finally` exchange lifecycle. -/

/-- The decoded `StreamEvent` shape from `api.ts`, as the dispatcher's
`switch` reads it.  Every field is optional because `JSON.parse`'s result is
cast, never validated: `type` is `none` when the parsed object carries no
`type` field, in which case no `case` matches. -/
structure StreamEvent where
  type : Option String := none
  tool : Option String := none
  input : Option (List (String × Json)) := none
  conversation_id : Option String := none
  response : Option String := none
  charts : Option (List ChartConfig) := none
  presentations : Option (List PresentationConfig) := none
  presentation : Option PresentationConfig := none
  suggestions : Option (List String) := none
  message : Option String := none
deriving Repr

/-- `role: 'user' | 'assistant'` of `Message` in `types.ts`. -/
inductive Role where
  | user | assistant
deriving Repr, DecidableEq

/-- `Message` from `types.ts`, plus the `presentations` field that
`sendMessage` attaches to assistant messages.  `id` (`uuidv4()`) and
`timestamp` (`new Date()`) are drawn from the state's monotone counter. -/
structure Message where
  id : Nat
  role : Role
  content : String
  timestamp : Nat
  charts : Option (List ChartConfig) := none
  presentations : Option (List PresentationConfig) := none
  suggestions : Option (List String) := none
deriving Repr

/-- The `ToolStatus` state of `useChat.ts` (the Tool Activity Tracker). -/
structure ToolStatus where
  isActive : Bool
  currentTool : Option String
  toolHistory : List String
deriving Repr, DecidableEq

/-- The reset value `{ isActive: false, currentTool: null, toolHistory: [] }`. -/
def emptyToolStatus : ToolStatus :=
  { isActive := false, currentTool := none, toolHistory := [] }

/-- The `useChat` hook state.  `nextId` models the sources of `uuidv4()` and
`new Date()`. -/
structure ChatState where
  messages : List Message
  conversationId : Option String
  isLoading : Bool
  error : Option String
  currentPresentation : Option PresentationConfig
  toolStatus : ToolStatus
  nextId : Nat
deriving Repr

/-- The initial `useState` values of `useChat`. -/
def initialChatState : ChatState :=
  { messages := [], conversationId := none, isLoading := false, error := none
    currentPresentation := none, toolStatus := emptyToolStatus, nextId := 0 }

/-- JavaScript `a || b` for an optional string and a string default:
`undefined`, `null` and `''` are falsy. -/
def jsOrS (a : Option String) (b : String) : String :=
  match a with
  | some s => if s = "" then b else s
  | none => b

/-- JavaScript `a || null` for an optional string: the empty string collapses
to `null`. -/
def jsTruthy (a : Option String) : Option String :=
  match a with
  | some s => if s = "" then none else some s
  | none => none

/-- JavaScript falsiness of a `string | null | undefined` value
(`!conversationId`). -/
def jsFalsy (a : Option String) : Bool :=
  a == none || a == some ""

/-- The per-event `switch` of `sendMessage`'s `onEvent` callback in
`useChat.ts`.  `conv0` is the `conversationId` captured by the callback's
closure when the request began: reads of `conversationId` inside the callback
see this stale value, not updates made during the same stream. -/
def dispatchEvent (conv0 : Option String) (st : ChatState) (e : StreamEvent) :
    ChatState :=
  match e.type with
  | some "tool_start" =>
    { st with toolStatus :=
        { isActive := true
          currentTool := jsTruthy e.tool
          toolHistory := st.toolStatus.toolHistory ++ [e.tool.getD ""] } }
  | some "tool_end" =>
    { st with toolStatus :=
        { st.toolStatus with isActive := false, currentTool := none } }
  | some "presentation" =>
    match e.presentation with
    | some p => { st with currentPresentation := some p }
    | none => st
  | some "final" =>
    let assistantMessage : Message :=
      { id := st.nextId, role := Role.assistant
        content := e.response.getD "", timestamp := st.nextId
        charts := e.charts, presentations := e.presentations
        suggestions := e.suggestions }
    let st1 := { st with messages := st.messages ++ [assistantMessage]
                         nextId := st.nextId + 1 }
    let st2 :=
      match e.presentations with
      | some (p :: _) => { st1 with currentPresentation := some p }
      | _ => st1
    if (jsTruthy e.conversation_id).isSome && jsFalsy conv0 then
      { st2 with conversationId := e.conversation_id }
    else st2
  | some "error" =>
    { st with error := some (jsOrS e.message "An error occurred") }
  | _ => st

/-- Fold the `onEvent` callback over a request's decoded events in arrival
order (the transport delivers them synchronously and in order). -/
def processEvents (conv0 : Option String) (st : ChatState)
    (events : List StreamEvent) : ChatState :=
  events.foldl (dispatchEvent conv0) st

/-- `const convId = response.headers.get('X-Conversation-Id') ||
conversationId || '';` — the string `sendMessageStream` returns. -/
def sendMessageStreamConvId (hdr : Option String)
    (callerConv : Option String) : String :=
  jsOrS hdr (jsOrS callerConv "")

/-- The transport outcome of one `sendMessageStream` call as observed by
`sendMessage`: a non-2xx status (`throw new Error('HTTP error! status: ..')`),
a missing body (`throw new Error('No response body')`), or a completed stream
with the `X-Conversation-Id` header value and the decoded events delivered to
the callback before the returned conversation id. -/
inductive TransportResult where
  | httpErr (status : Nat)
  | noBody
  | ok (hdr : Option String) (events : List StreamEvent)

/-- `sendMessage` from `useChat.ts`: set loading, clear the error, reset the
tracker, append the user message, run the stream (dispatching each event),
adopt the returned conversation id when none was set, surface any thrown
transport error via `setError`, and in `finally` clear loading and reset the
tracker. -/
def sendMessage (content : String) (tr : TransportResult) (st : ChatState) :
    ChatState :=
  let st1 := { st with isLoading := true, error := none
                       toolStatus := emptyToolStatus }
  let userMessage : Message :=
    { id := st1.nextId, role := Role.user, content := content
      timestamp := st1.nextId }
  let st2 := { st1 with messages := st1.messages ++ [userMessage]
                        nextId := st1.nextId + 1 }
  let conv0 := st2.conversationId
  let st3 :=
    match tr with
    | TransportResult.httpErr status =>
      { st2 with error := some ("HTTP error! status: " ++ toString status) }
    | TransportResult.noBody => { st2 with error := some "No response body" }
    | TransportResult.ok hdr events =>
      let stE := processEvents conv0 st2 events
      let newConvId := sendMessageStreamConvId hdr conv0
      if jsFalsy conv0 && (newConvId != "") then
        { stE with conversationId := some newConvId }
      else stE
  { st3 with isLoading := false, toolStatus := emptyToolStatus }

/-- Is this a `final` event? -/
def isFinalEv (e : StreamEvent) : Bool :=
  e.type == some "final"

/-- Is this an `error` event? -/
def isErrorEv (e : StreamEvent) : Bool :=
  e.type == some "error"

/-- A stream whose only event is an `error` event from the agent. -/
def c4ErrorEvent : StreamEvent :=
  { type := some "error", message := some "boom" }

/-- The event sequence of the C5 scenario. -/
def c5Events : List StreamEvent :=
  [{ type := some "tool_start", tool := some "execute_sql_query" },
   { type := some "tool_end" },
   { type := some "final", conversation_id := some "c1"
     response := some "Total sales: $1000", charts := some []
     presentations := some [], suggestions := some ["Show by region"] }]

/-! ## Chart rasterization pipeline
`captureChartImages` from `PresentationSidebar.tsx`. -/

/-- `slide.contentType === 'chart' && slide.chartConfig && !slide.chartImage`:
does this slide qualify for capture?  An empty-string `chartImage` is falsy
in JavaScript, so a slide with an empty image string also qualifies. -/
def qualifiesForCapture (s : SlideContent) : Bool :=
  s.contentType == ContentType.chart && s.chartConfig.isSome
    && (s.chartImage == none || s.chartImage == some "")

/-- `captureChartImages` from `PresentationSidebar.tsx`.  The capture
environment `cap` models the DOM side effects per slide id: `none` when
`chartRefs` holds no element for the slide, `some none` when `html2canvas`
throws (the failure is logged and the slide is returned without an image),
and `some (some img)` when capture succeeds with the encoded image data.
The mounting of `chartsToCapture`, the settle delay and the unmounting are
UI effects with no bearing on the returned slides. -/
def captureChartImages (deck : PresentationConfig)
    (cap : String → Option (Option String)) : List SlideContent :=
  let slidesWithCharts := deck.slides.filter qualifiesForCapture
  if slidesWithCharts.isEmpty then deck.slides
  else
    deck.slides.map (fun slide =>
      if qualifiesForCapture slide then
        match cap slide.id with
        | some (some imageData) => { slide with chartImage := some imageData }
        | some none => slide
        | none => slide
      else slide)

/-- Equality on every slide field except the rasterized image. -/
def slideFrameEq (s t : SlideContent) : Prop :=
  t.id = s.id ∧ t.order = s.order ∧ t.title = s.title ∧
  t.contentType = s.contentType ∧ t.content = s.content ∧
  t.notes = s.notes ∧ t.chartConfig = s.chartConfig

/-! ## Theorems -/

theorem renumberFrom_length (l : List SlideContent) (k : Nat) :
    (renumberFrom k l).length = l.length := by
  induction l generalizing k with
  | nil => rfl
  | cons s rest ih => simp [renumberFrom, ih]

theorem renumberFrom_map_order (l : List SlideContent) (k : Nat) :
    (renumberFrom k l).map SlideContent.order = List.range' k l.length := by
  induction l generalizing k with
  | nil => rfl
  | cons s rest ih => simp [renumberFrom, List.range'_succ, ih]

theorem ordersContig_renumber (l : List SlideContent) :
    ordersContig (renumber l) := by
  unfold ordersContig renumber
  rw [renumberFrom_map_order, renumberFrom_length]

theorem ordersContig_append (deck : PresentationConfig) (c : ChartConfig)
    (img : String) (h : ordersContig deck.slides) :
    ordersContig (addChartToPresentation deck c img).slides := by
  unfold ordersContig at h ⊢
  simp only [addChartToPresentation, List.map_append, List.length_append,
    List.map_cons, List.map_nil, List.length_cons, List.length_nil]
  rw [h, List.range'_concat]
  simp
  omega

theorem ordersContig_step (deck : PresentationConfig) (op : DeckOp)
    (h : ordersContig deck.slides) : ordersContig (applyDeckOp deck op).slides := by
  cases op with
  | append c img => exact ordersContig_append deck c img h
  | del sid => exact ordersContig_renumber _
  | move sid dir =>
    show ordersContig (handleMoveSlide deck sid dir).slides
    unfold handleMoveSlide
    cases hidx : deck.slides.findIdx? (fun s => s.id == sid) with
    | none =>
      simp only [hidx]
      cases dir with
      | up => exact ordersContig_renumber _
      | down =>
        cases hs : deck.slides with
        | nil => simp only [hs]; exact hs ▸ h
        | cons s rest => simp only [hs]; exact ordersContig_renumber _
    | some i =>
      simp only [hidx]
      by_cases hb : (dir = MoveDir.up ∧ i = 0) ∨
          (dir = MoveDir.down ∧ i = deck.slides.length - 1)
      · rw [if_pos hb]; exact h
      · rw [if_neg hb]; exact ordersContig_renumber _

/-- Claim C1: for every deck satisfying the slide-order invariant and every
sequence of `addChartToPresentation`, `handleDeleteSlide` and
`handleMoveSlide` operations applied to it, the resulting deck's `order`
values are exactly the contiguous sequence `1..N`, the slide at array
position `i` carrying order `i + 1`. -/
theorem deck_order_invariant (deck : PresentationConfig) (ops : List DeckOp)
    (h : ordersContig deck.slides) :
    ordersContig (applyDeckOps deck ops).slides := by
  induction ops generalizing deck with
  | nil => exact h
  | cons op rest ih => exact ih _ (ordersContig_step deck op h)

/-- Witness for `deck_order_invariant` at a concrete deck and operation
sequence. -/
theorem deck_order_invariant_witness :
    ordersContig emptyDeck.slides ∧
      ordersContig (applyDeckOps emptyDeck
        [DeckOp.append (sampleChart "Revenue") "",
         DeckOp.append (sampleChart "Costs") "",
         DeckOp.append (sampleChart "Margin") "",
         DeckOp.move "slide-1" MoveDir.down,
         DeckOp.del "slide-3",
         DeckOp.move "slide-2" MoveDir.up]).slides :=
  ⟨by decide, deck_order_invariant _ _ (by decide)⟩

/-- Counterexample to claim C2: starting from an empty deck, append two
charts (ids `slide-1`, `slide-2`), delete `slide-1`, and append again: the
newly appended slide receives id `slide-2`, an identifier already used in the
deck — indeed still present, so the deck ends with a duplicated id. -/
theorem slide_id_reuse_cex :
    (addChartToPresentation
        (handleDeleteSlide
          (addChartToPresentation
            (addChartToPresentation emptyDeck (sampleChart "Revenue") "")
            (sampleChart "Costs") "")
          "slide-1")
        (sampleChart "Margin") "").slides.map SlideContent.id
      = ["slide-2", "slide-2"] ∧
    "slide-2" ∈
      (addChartToPresentation
        (addChartToPresentation emptyDeck (sampleChart "Revenue") "")
        (sampleChart "Costs") "").slides.map SlideContent.id := by
  decide

/-- Claim C2 (amended): the identifier assigned to a newly appended slide is
`slide-(N+1)` where `N` is the slide count before the append; because a
deletion shrinks the count without renaming the survivors, such an identifier
can repeat one previously used in the deck (see `slide_id_reuse_cex`). -/
theorem slide_id_from_count (deck : PresentationConfig) (chart : ChartConfig)
    (img : String) :
    (addChartToPresentation deck chart img).slides.map SlideContent.id
      = deck.slides.map SlideContent.id
        ++ ["slide-" ++ toString (deck.slides.length + 1)] := by
  simp [addChartToPresentation]

theorem splitNN_ne_nil (s : List Char) : splitNN s ≠ [] := by
  match s with
  | [] => simp [splitNN]
  | [c] => simp [splitNN]
  | c1 :: c2 :: rest =>
    unfold splitNN
    by_cases h : c1 = '\n' ∧ c2 = '\n'
    · simp [h]
    · simp only [if_neg h]
      cases splitNN (c2 :: rest) <;> simp

theorem splitNN_single : ∀ s p : List Char, splitNN s = [p] → p = s := by
  intro s
  induction s using splitNN.induct with
  | case1 =>
    intro p h
    simp [splitNN] at h
    exact h
  | case2 c =>
    intro p h
    simp [splitNN] at h
    exact h.symm
  | case3 c1 c2 rest h ih =>
    intro p hp
    rw [splitNN, if_pos h] at hp
    injection hp with h1 h2
    exact absurd h2 (splitNN_ne_nil rest)
  | case4 c1 c2 rest h hnil ih =>
    exact absurd hnil (splitNN_ne_nil _)
  | case5 c1 c2 rest h q qs hs ih =>
    intro p hp
    rw [splitNN, if_neg h, hs] at hp
    injection hp with h1 h2
    subst h2
    rw [← h1, ih q hs]

/-- Streaming homomorphism of the blank-line split: splitting `a ++ b` is the
same as splitting `a`, committing all complete parts, and re-splitting the
carry-over residue joined with `b`.  This is exactly the re-scan the decoder
loop performs at each chunk boundary. -/
theorem splitNN_append : ∀ a b : List Char,
    splitNN (a ++ b)
      = (splitNN a).dropLast ++ splitNN ((splitNN a).getLastD [] ++ b) := by
  intro a
  induction a using splitNN.induct with
  | case1 =>
    intro b
    simp [splitNN]
  | case2 c =>
    intro b
    simp [splitNN]
  | case3 c1 c2 rest h ih =>
    intro b
    obtain ⟨h1, h2⟩ := h
    subst h1
    subst h2
    have hA : splitNN ('\n' :: '\n' :: rest) = [] :: splitNN rest := by
      rw [splitNN, if_pos ⟨rfl, rfl⟩]
    obtain ⟨q, qs, hq⟩ := List.exists_cons_of_ne_nil (splitNN_ne_nil rest)
    have ihb := ih b
    simp only [List.cons_append] at ihb ⊢
    conv_lhs => rw [splitNN, if_pos ⟨rfl, rfl⟩]
    rw [ihb, hA, hq]
    simp [List.getLastD_cons]
  | case4 c1 c2 rest h hnil ih =>
    exact absurd hnil (splitNN_ne_nil _)
  | case5 c1 c2 rest h q qs hs ih =>
    intro b
    have hA : splitNN (c1 :: c2 :: rest) = (c1 :: q) :: qs := by
      rw [splitNN, if_neg h, hs]
    cases qs with
    | nil =>
      have hq : q = c2 :: rest := splitNN_single _ _ hs
      subst hq
      rw [hA]
      simp [List.cons_append]
    | cons q2 qs2 =>
      have ihb := ih b
      simp only [List.cons_append] at ihb ⊢
      conv_lhs => rw [splitNN, if_neg h]
      rw [ihb, hs, hA]
      simp [List.getLastD_cons]

/-- Claim C3: for every stream and every offset at which it is split into two
chunks, feeding the two chunks to `sendMessageStream`'s decode loop delivers
exactly the same ordered event sequence as feeding the stream whole — the
blank-line framing with carry-over buffer is chunk-boundary-independent.
(Byte streams are modelled at decoded-character granularity: the
`TextDecoder` in streaming mode carries partial UTF-8 sequences across chunk
boundaries, so a byte-offset split decodes to a character-offset split.) -/
theorem chunk_split_invariance (s : List Char) (i : Nat) :
    decodeChunks [s.take i, s.drop i] = decodeChunks [s] := by
  have h := splitNN_append (s.take i) (s.drop i)
  rw [List.take_append_drop] at h
  unfold decodeChunks feedChunk
  simp only [List.foldl_cons, List.foldl_nil, List.nil_append]
  rw [h, List.dropLast_append_of_ne_nil _ (splitNN_ne_nil _), List.filterMap_append]

/-- A complete record followed by the blank-line delimiter splits off intact,
provided the record neither contains the delimiter nor ends in a newline
(either would move the leftmost delimiter match). -/
theorem splitNN_record : ∀ r : List Char, hasNN r = false →
    r.getLast? ≠ some '\n' → ∀ s : List Char,
    splitNN (r ++ '\n' :: '\n' :: s) = r :: splitNN s := by
  intro r
  induction r using splitNN.induct with
  | case1 =>
    intro _ _ s
    rw [List.nil_append, splitNN, if_pos ⟨rfl, rfl⟩]
  | case2 c =>
    intro _ h2 s
    have hc : ¬(c = '\n' ∧ '\n' = '\n') := by
      intro hand
      exact h2 (by simp [hand.1])
    have hA : splitNN ('\n' :: '\n' :: s) = [] :: splitNN s := by
      rw [splitNN, if_pos ⟨rfl, rfl⟩]
    show splitNN (c :: '\n' :: '\n' :: s) = [c] :: splitNN s
    rw [splitNN, if_neg hc, hA]
  | case3 c1 c2 rest h ih =>
    intro h1 _ _
    rw [hasNN] at h1
    simp [h] at h1
  | case4 c1 c2 rest h hnil ih =>
    exact absurd hnil (splitNN_ne_nil _)
  | case5 c1 c2 rest h q qs hs ih =>
    intro h1 h2 s
    rw [hasNN] at h1
    simp only [Bool.or_eq_false_iff] at h1
    have h2' : (c2 :: rest).getLast? ≠ some '\n' := by
      rw [← List.getLast?_cons_cons]
      exact h2
    have ihs := ih h1.2 h2' s
    simp only [List.cons_append] at ihs ⊢
    rw [splitNN, if_neg h, ihs]

/-- Claim C6: a record stream of a well-formed record, then a marked record
whose payload fails `JSON.parse`, then another well-formed record, delivers
exactly the two well-formed events in their original order: the malformed
record is silently dropped and does not abort the stream.  Records are
delimiter-free and do not end in a newline, as the blank-line framing
requires of complete records. -/
theorem lenient_decode (r1 r2 r3 : List Char) (e1 e3 : Json)
    (g1 : hasNN r1 = false) (g4 : r1.getLast? ≠ some '\n')
    (g2 : hasNN r2 = false) (g5 : r2.getLast? ≠ some '\n')
    (g3 : hasNN r3 = false) (g6 : r3.getLast? ≠ some '\n')
    (h1 : parseFrame r1 = some e1)
    (h2m : dataMarker.isPrefixOf r2 = true)
    (h2p : jsonParse (r2.drop 6) = none)
    (h3 : parseFrame r3 = some e3) :
    decodeChunks
        [r1 ++ '\n' :: '\n' :: (r2 ++ '\n' :: '\n' :: (r3 ++ ['\n', '\n']))]
      = [e1, e3] := by
  have h2 : parseFrame r2 = none := by
    simp [parseFrame, h2m, h2p]
  unfold decodeChunks feedChunk
  simp only [List.foldl_cons, List.foldl_nil, List.nil_append]
  rw [splitNN_record r1 g1 g4, splitNN_record r2 g2 g5, splitNN_record r3 g3 g6]
  simp [splitNN, h1, h2, h3]

/-- Witness for `lenient_decode`: a valid object record, then a record whose
payload is not JSON, then a valid array record. -/
theorem lenient_decode_witness :
    decodeChunks
        [("data: \x7b\"a\": 1\x7d").data ++ '\n' :: '\n' ::
          (("data: \x7bnope").data ++ '\n' :: '\n' ::
            (("data: [2]").data ++ ['\n', '\n']))]
      = [Json.obj [("a", Json.num 1)], Json.arr [Json.num 2]] :=
  lenient_decode _ _ _ _ _ rfl (by decide) rfl (by decide) rfl (by decide)
    rfl rfl rfl rfl

/-- Claim C9: a complete record whose text does not begin with the fixed
marker `'data: '` produces no event — `parseFrame` yields `none` for it —
and the decoder's per-frame processing therefore delivers exactly the events
of the surrounding records, in order. -/
theorem marker_required (f : List Char) (pre post : List (List Char))
    (h : dataMarker.isPrefixOf f = false) :
    parseFrame f = none ∧
      (pre ++ f :: post).filterMap parseFrame
        = pre.filterMap parseFrame ++ post.filterMap parseFrame := by
  have hf : parseFrame f = none := by simp [parseFrame, h]
  exact ⟨hf, by simp [List.filterMap_append, List.filterMap_cons, hf]⟩

/-- Witness for `marker_required`: an unmarked record between two marked
ones. -/
theorem marker_required_witness :
    parseFrame ("event: ping").data = none ∧
      ([("data: 1").data] ++ ("event: ping").data :: [("data: 2").data]).filterMap
          parseFrame
        = [("data: 1").data].filterMap parseFrame
          ++ [("data: 2").data].filterMap parseFrame :=
  marker_required _ _ _ rfl

theorem dispatchEvent_non_terminal (conv0 : Option String) (st : ChatState)
    (e : StreamEvent) (hf : isFinalEv e = false) (he : isErrorEv e = false) :
    (dispatchEvent conv0 st e).messages = st.messages ∧
    (dispatchEvent conv0 st e).error = st.error ∧
    (dispatchEvent conv0 st e).conversationId = st.conversationId ∧
    (dispatchEvent conv0 st e).nextId = st.nextId := by
  unfold dispatchEvent
  split
  · exact ⟨rfl, rfl, rfl, rfl⟩
  · exact ⟨rfl, rfl, rfl, rfl⟩
  · split
    · exact ⟨rfl, rfl, rfl, rfl⟩
    · exact ⟨rfl, rfl, rfl, rfl⟩
  · rename_i htype
    rw [isFinalEv, htype] at hf
    simp at hf
  · rename_i htype
    rw [isErrorEv, htype] at he
    simp at he
  · exact ⟨rfl, rfl, rfl, rfl⟩

theorem processEvents_non_terminal (conv0 : Option String) (st : ChatState)
    (events : List StreamEvent)
    (h : ∀ e ∈ events, isFinalEv e = false ∧ isErrorEv e = false) :
    (processEvents conv0 st events).messages = st.messages ∧
    (processEvents conv0 st events).error = st.error ∧
    (processEvents conv0 st events).conversationId = st.conversationId ∧
    (processEvents conv0 st events).nextId = st.nextId := by
  induction events generalizing st with
  | nil => exact ⟨rfl, rfl, rfl, rfl⟩
  | cons e rest ih =>
    have he := h e (List.mem_cons_self e rest)
    have hd := dispatchEvent_non_terminal conv0 st e he.1 he.2
    have ih' := ih (dispatchEvent conv0 st e)
      (fun x hx => h x (List.mem_cons_of_mem e hx))
    unfold processEvents at ih' ⊢
    rw [List.foldl_cons]
    exact ⟨ih'.1.trans hd.1, ih'.2.1.trans hd.2.1,
      ih'.2.2.1.trans hd.2.2.1, ih'.2.2.2.trans hd.2.2.2⟩

theorem dispatchEvent_error_eq (conv0 : Option String) (st : ChatState)
    (e : StreamEvent) (he : isErrorEv e = true) :
    dispatchEvent conv0 st e
      = { st with error := some (jsOrS e.message "An error occurred") } := by
  have ht : e.type = some "error" := eq_of_beq he
  unfold dispatchEvent
  rw [ht]
  rfl

/-- Claim C4: every failing exchange — non-success HTTP status, missing
response body, or a terminal `error` event from the agent — records exactly
one user-visible error, appends no assistant message (the exchange adds only
its user message), and ends with `loading` false and the Tool Activity
Tracker reset, regardless of where in the stream the failure occurred.
Streams obey the protocol rule that the terminal event is the last event. -/
theorem failing_exchange (content : String) (st : ChatState)
    (tr : TransportResult)
    (hfail : (∃ status, tr = TransportResult.httpErr status) ∨
        tr = TransportResult.noBody ∨
        ∃ hdr pre errE, tr = TransportResult.ok hdr (pre ++ [errE]) ∧
          isErrorEv errE = true ∧
          ∀ e ∈ pre, isFinalEv e = false ∧ isErrorEv e = false) :
    (sendMessage content tr st).error.isSome = true ∧
    (sendMessage content tr st).messages
      = st.messages
        ++ [{ id := st.nextId, role := Role.user,
              content := content, timestamp := st.nextId }] ∧
    (sendMessage content tr st).isLoading = false ∧
    (sendMessage content tr st).toolStatus = emptyToolStatus := by
  rcases hfail with ⟨status, rfl⟩ | rfl | ⟨hdr, pre, errE, rfl, herr, hpre⟩
  · exact ⟨rfl, rfl, rfl, rfl⟩
  · exact ⟨rfl, rfl, rfl, rfl⟩
  · have key : ∀ (conv0 : Option String) (s0 : ChatState),
        (processEvents conv0 s0 (pre ++ [errE])).error
            = some (jsOrS errE.message "An error occurred") ∧
        (processEvents conv0 s0 (pre ++ [errE])).messages = s0.messages := by
      intro conv0 s0
      have hsp : processEvents conv0 s0 (pre ++ [errE])
          = dispatchEvent conv0 (processEvents conv0 s0 pre) errE := by
        unfold processEvents
        rw [List.foldl_append]
        rfl
      rw [hsp, dispatchEvent_error_eq _ _ _ herr]
      have hp := processEvents_non_terminal conv0 s0 pre hpre
      exact ⟨rfl, hp.1⟩
    refine ⟨?_, ?_, rfl, rfl⟩
    · show (sendMessage content (TransportResult.ok hdr (pre ++ [errE]))
        st).error.isSome = true
      unfold sendMessage
      dsimp only
      split
      · rw [(key _ _).1]
        rfl
      · rw [(key _ _).1]
        rfl
    · show (sendMessage content (TransportResult.ok hdr (pre ++ [errE]))
        st).messages = _
      unfold sendMessage
      dsimp only
      split
      · rw [(key _ _).2]
      · rw [(key _ _).2]

/-- Witness for `failing_exchange`: one agent `error` event terminates the
stream. -/
theorem failing_exchange_witness :
    (sendMessage "hi" (TransportResult.ok none [c4ErrorEvent])
        initialChatState).error.isSome = true ∧
    (sendMessage "hi" (TransportResult.ok none [c4ErrorEvent])
        initialChatState).messages
      = initialChatState.messages
        ++ [{ id := initialChatState.nextId, role := Role.user,
              content := "hi", timestamp := initialChatState.nextId }] ∧
    (sendMessage "hi" (TransportResult.ok none [c4ErrorEvent])
        initialChatState).isLoading = false ∧
    (sendMessage "hi" (TransportResult.ok none [c4ErrorEvent])
        initialChatState).toolStatus = emptyToolStatus :=
  failing_exchange "hi" initialChatState _
    (Or.inr (Or.inr ⟨none, [], c4ErrorEvent, rfl, rfl, by simp⟩))

theorem dispatchEvent_final_messages (conv0 : Option String) (st : ChatState)
    (e : StreamEvent) (he : isFinalEv e = true) :
    (dispatchEvent conv0 st e).messages
      = st.messages
        ++ [{ id := st.nextId, role := Role.assistant,
              content := e.response.getD "", timestamp := st.nextId,
              charts := e.charts, presentations := e.presentations,
              suggestions := e.suggestions }] := by
  have ht : e.type = some "final" := eq_of_beq he
  unfold dispatchEvent
  split
  · rename_i htype
    rw [htype] at ht
    exact absurd ht (by decide)
  · rename_i htype
    rw [htype] at ht
    exact absurd ht (by decide)
  · rename_i htype
    rw [htype] at ht
    exact absurd ht (by decide)
  · dsimp only
    split
    · split <;> rfl
    · split <;> rfl
  · rename_i htype
    rw [htype] at ht
    exact absurd ht (by decide)
  · rename_i h1 h2 h3 h4 h5
    exact absurd ht h4

theorem dispatchEvent_not_final_messages (conv0 : Option String)
    (st : ChatState) (e : StreamEvent) (hf : isFinalEv e = false) :
    (dispatchEvent conv0 st e).messages = st.messages ∧
    (dispatchEvent conv0 st e).nextId = st.nextId := by
  unfold dispatchEvent
  split
  · exact ⟨rfl, rfl⟩
  · exact ⟨rfl, rfl⟩
  · split <;> exact ⟨rfl, rfl⟩
  · rename_i htype
    rw [isFinalEv, htype] at hf
    simp at hf
  · exact ⟨rfl, rfl⟩
  · exact ⟨rfl, rfl⟩

/-- Claim C8: the dispatcher enforces no terminal-event finality: each event
is applied by the same per-event function whether or not a `final` or
`error` event was already processed, so over any event list the message log
grows by exactly one assistant message per `final` event — in particular a
stream carrying two `final` events appends two assistant messages. -/
theorem dispatch_no_finality (conv0 : Option String) (st : ChatState)
    (events : List StreamEvent) :
    ∃ appended : List Message,
      (processEvents conv0 st events).messages = st.messages ++ appended ∧
      appended.length = events.countP (fun e => isFinalEv e) ∧
      ∀ m ∈ appended, m.role = Role.assistant := by
  induction events generalizing st with
  | nil =>
    exact ⟨[], by simp [processEvents], by simp, by simp⟩
  | cons e rest ih =>
    have hstep : processEvents conv0 st (e :: rest)
        = processEvents conv0 (dispatchEvent conv0 st e) rest := by
      unfold processEvents
      rw [List.foldl_cons]
    obtain ⟨app, h1, h2, h3⟩ := ih (dispatchEvent conv0 st e)
    by_cases hf : isFinalEv e = true
    · refine ⟨{ id := st.nextId, role := Role.assistant,
                content := e.response.getD "", timestamp := st.nextId,
                charts := e.charts, presentations := e.presentations,
                suggestions := e.suggestions } :: app, ?_, ?_, ?_⟩
      · rw [hstep, h1, dispatchEvent_final_messages conv0 st e hf]
        simp
      · simp [List.countP_cons, hf, h2]
      · intro m hm
        rcases List.mem_cons.mp hm with h | h
        · rw [h]
        · exact h3 m h
    · have hnf : isFinalEv e = false := by
        cases hbe : isFinalEv e
        · rfl
        · exact absurd hbe hf
      obtain ⟨hm, hn⟩ := dispatchEvent_not_final_messages conv0 st e hnf
      refine ⟨app, ?_, ?_, h3⟩
      · rw [hstep, h1, hm]
      · simp [List.countP_cons, hnf, h2]

/-- Claim C5: processing `tool_start`, `tool_end`, `final` from a fresh
state leaves the Tool Activity Tracker inactive with no current tool and
history `["execute_sql_query"]`, appends exactly one assistant message with
the response text and the single suggestion, and sets the conversation
identity to `"c1"`. -/
theorem scenario_tool_then_final :
    (processEvents none initialChatState c5Events).toolStatus
        = { isActive := false, currentTool := none,
            toolHistory := ["execute_sql_query"] } ∧
    (processEvents none initialChatState c5Events).messages
        = [{ id := 0, role := Role.assistant, content := "Total sales: $1000",
             timestamp := 0, charts := some [], presentations := some [],
             suggestions := some ["Show by region"] }] ∧
    (processEvents none initialChatState c5Events).conversationId
        = some "c1" :=
  ⟨rfl, rfl, rfl⟩

theorem dispatchEvent_convId (conv0 : Option String) (st : ChatState)
    (e : StreamEvent)
    (h : isFinalEv e = true → jsTruthy e.conversation_id = none) :
    (dispatchEvent conv0 st e).conversationId = st.conversationId := by
  unfold dispatchEvent
  split
  · rfl
  · rfl
  · split <;> rfl
  · rename_i htype
    have hj := h (by rw [isFinalEv, htype]; rfl)
    dsimp only
    rw [hj]
    simp only [Option.isSome_none, Bool.false_and, Bool.false_eq_true,
      if_false]
    split <;> rfl
  · rfl
  · rfl

theorem processEvents_convId (conv0 : Option String) (st : ChatState)
    (events : List StreamEvent)
    (hev : ∀ e ∈ events, isFinalEv e = true →
      jsTruthy e.conversation_id = none) :
    (processEvents conv0 st events).conversationId = st.conversationId := by
  induction events generalizing st with
  | nil => rfl
  | cons e rest ih =>
    have hstep : processEvents conv0 st (e :: rest)
        = processEvents conv0 (dispatchEvent conv0 st e) rest := by
      unfold processEvents
      rw [List.foldl_cons]
    rw [hstep, ih _ (fun x hx => hev x (List.mem_cons_of_mem e hx)),
      dispatchEvent_convId conv0 st e (hev e (List.mem_cons_self e rest))]

/-- Claim C10: when neither the `X-Conversation-Id` header nor the caller
supplies a conversation identity, `sendMessageStream` returns the empty
string, which the post-stream adoption check treats as absent: the session's
conversation identity stays unset after the exchange unless a `final` event
itself carried one. -/
theorem conv_id_absent (content : String) (st : ChatState)
    (events : List StreamEvent)
    (h0 : st.conversationId = none)
    (hev : ∀ e ∈ events, isFinalEv e = true →
      jsTruthy e.conversation_id = none) :
    sendMessageStreamConvId none none = "" ∧
    (sendMessage content (TransportResult.ok none events) st).conversationId
      = none := by
  refine ⟨rfl, ?_⟩
  unfold sendMessage
  dsimp only
  rw [h0]
  rw [if_neg (by decide)]
  rw [processEvents_convId _ _ _ hev]

/-- Witness for `conv_id_absent`: header absent, fresh session, one `final`
event without a conversation id. -/
theorem conv_id_absent_witness :
    sendMessageStreamConvId none none = "" ∧
    (sendMessage "hello"
        (TransportResult.ok none [{ type := some "final" }])
        initialChatState).conversationId = none :=
  conv_id_absent "hello" initialChatState [{ type := some "final" }] rfl
    (by
      intro e he _
      rw [List.mem_singleton] at he
      subst he
      rfl)

/-- Claim C7: for every deck and capture environment, the rasterization
pipeline returns a slide list of the same length and order as the input in
which every slide agrees with its input slide on every field except possibly
`chartImage` — structural fields (`id`, `order`, `title`), the content kind
and payload, the notes and the chart descriptor are never modified — and
every slide that does not qualify for capture is returned entirely
unchanged. -/
theorem capture_frame (deck : PresentationConfig)
    (cap : String → Option (Option String)) :
    (captureChartImages deck cap).length = deck.slides.length ∧
    List.Forall₂
      (fun s t => slideFrameEq s t ∧ (qualifiesForCapture s = false → t = s))
      deck.slides (captureChartImages deck cap) := by
  constructor
  · unfold captureChartImages
    dsimp only
    split
    · rfl
    · simp
  · unfold captureChartImages
    try dsimp only
    split
    · rw [List.forall₂_same]
      intro s hs
      exact ⟨⟨rfl, rfl, rfl, rfl, rfl, rfl, rfl⟩, fun _ => rfl⟩
    · rw [List.forall₂_map_right_iff, List.forall₂_same]
      intro s hs
      try dsimp only
      cases hq : qualifiesForCapture s with
      | false =>
        simp only [hq, Bool.false_eq_true, if_false]
        refine ⟨⟨rfl, rfl, rfl, rfl, rfl, rfl, rfl⟩, ?_⟩
        simp
      | true =>
        simp only [hq, if_true]
        refine ⟨?_, ?_⟩
        · cases cap s.id with
          | none => exact ⟨rfl, rfl, rfl, rfl, rfl, rfl, rfl⟩
          | some o =>
            cases o with
            | none => exact ⟨rfl, rfl, rfl, rfl, rfl, rfl, rfl⟩
            | some img => exact ⟨rfl, rfl, rfl, rfl, rfl, rfl, rfl⟩
        · intro hf
          exact Bool.noConfusion hf

end Cog

